import Mathlib

/-!
Verification development for the `lapce-proxy` plugin host
(`lapce-proxy/src/plugin.rs`, `lapce-proxy/src/plugin/mod.rs`).

The Rust code is shallowly embedded: pure control flow becomes Lean
functions, `HashMap`s become association lists with replace-on-insert
semantics, filesystem and serde effects become explicit environment
functions, and `unwrap()` panics become an explicit `panicked` outcome.
-/

set_option autoImplicit false

namespace Lapce

/-! ## Association-list model of `HashMap` -/

/-- `HashMap::get`: first binding for the key, if any. -/
def lookup {α β : Type} [DecidableEq α] (k : α) : List (α × β) → Option β
  | [] => none
  | p :: t => if p.1 = k then some p.2 else lookup k t

/-- `HashMap::insert`: replace any existing binding for the key. -/
def insertMap {α β : Type} [DecidableEq α] (k : α) (v : β)
    (m : List (α × β)) : List (α × β) :=
  (k, v) :: m.filter (fun p => p.1 ≠ k)

/-- `HashMap::remove`ing a key from the table. -/
def removeKey {α β : Type} [DecidableEq α] (k : α)
    (m : List (α × β)) : List (α × β) :=
  m.filter (fun p => p.1 ≠ k)

/-- `HashMap::contains_key`. -/
def containsKey {α β : Type} [DecidableEq α] (k : α) (m : List (α × β)) : Bool :=
  (lookup k m).isSome

/-- The key set of a map (`into_keys`). -/
def keys {α β : Type} (m : List (α × β)) : List α :=
  m.map Prod.fst

/-! ## Rust path primitives used by the handlers -/

/-- Split a character list at every occurrence of the separator; always
returns at least one (possibly empty) segment, like Rust `str::split`. -/
def splitOnChar (c : Char) : List Char → List (List Char)
  | [] => [[]]
  | a :: t =>
    match splitOnChar c t with
    | h :: r => if a = c then [] :: h :: r else (a :: h) :: r
    | [] => if a = c then [[], []] else [[a]]

/-- Components of a Unix path in the sense of Rust `std::path::Path::components`:
split on `/`, dropping empty segments and `.` segments (so `..` survives). -/
def pathComponents (s : String) : List String :=
  ((splitOnChar '/' s.toList).map String.mk).filter (fun c => c != "" && c != ".")

/-- Rust `Path::file_name`: the final component when it is a normal component;
`none` when the path ends in `..`, is a bare root, or is empty. -/
def fileName (s : String) : Option String :=
  match (pathComponents s).getLast? with
  | some c => if c = ".." then none else some c
  | none => none

/-- Rust `Path::join`: an absolute right operand replaces the base path. -/
def joinPath (base p : String) : String :=
  if p.startsWith "/" then p else base ++ "/" ++ p

/-! ## Plugin descriptors (`lapce_rpc::plugin::PluginDescription`)

Only the fields the embedded code paths read are modelled: `name`, the
resolved installation directory `dir`, the bytecode artifact path `wasm`,
and the optional theme paths `themes`. -/

structure PluginDesc where
  name : String
  dir : Option String
  wasm : Option String
  themes : Option (List String)
  deriving DecidableEq, Repr

/-! ## `NewPluginCatalog::handle_notification`, `StartLspServer` branch
(`plugin.rs` lines 114-152)

The handler either spawns an LSP process with a resolved exec path,
returns without spawning (the `None => return` branch), or panics
(an `unwrap()` on a missing value). -/

structure StartLspArgs where
  plugin_id : Nat
  exec_path : String
  language_id : String
  system_lsp : Option Bool
  deriving DecidableEq, Repr

inductive SpawnOutcome where
  /-- `thread::spawn(NewLspClient::start(...))` runs with this exec path. -/
  | spawned (exec : String)
  /-- the handler returned without spawning anything -/
  | refused
  /-- the handler hit an `unwrap()` on `None` -/
  | panicked
  deriving DecidableEq, Repr

/-- The `StartLspServer` arm of `NewPluginCatalog::handle_notification`:
with `system_lsp.unwrap_or(false)` the exec path is reduced to
`Path::file_name` (refusing when there is none); otherwise the descriptor
of `plugins.get(&plugin_id).unwrap()` supplies the installation directory
the exec path is joined to, and a missing plugin or missing directory is
an `unwrap()` panic. -/
def handleStartLspServer (plugins : List (Nat × PluginDesc))
    (args : StartLspArgs) : SpawnOutcome :=
  if args.system_lsp.getD false then
    match fileName args.exec_path with
    | some v => .spawned v
    | none => .refused
  else
    match lookup args.plugin_id plugins with
    | some desc =>
      match desc.dir with
      | some d => .spawned (joinPath d args.exec_path)
      | none => .panicked
    | none => .panicked

/-! ## The RPC Broker's PendingTable
(`plugin/mod.rs` lines 89-116)

`PluginCatalogRpcHandler.pending` maps a `u64` request id to the one-shot
channel that delivers the response to the waiting continuation. The
continuation type is abstract here (`κ`). -/

/-- `PluginCatalogRpcHandler::handle_response` (`plugin/mod.rs` 112-116):
`self.pending.lock().remove(&id)` and, when an entry was present, send the
result on the removed channel. The returned pair is the new table and the
channel (if any) that received the result. -/
def handle_response {κ : Type} (pending : List (Nat × κ)) (id : Nat) :
    List (Nat × κ) × Option κ :=
  match lookup id pending with
  | some chan => (removeKey id pending, some chan)
  | none => (pending, none)

/-! ## The RPC Broker's request-id allocation
(`plugin/mod.rs` lines 89-110 and 154-167) -/

/-- The `u64` modulus of the Broker's `AtomicU64` id counter. -/
def U64MOD : Nat := 2 ^ 64

/-- Modelled from the spec: one id allocation of the Broker. The code under
`src/` declares the counter (`id: Arc<AtomicU64>`, initialized to 0 in
`PluginCatalogRpcHandler::new`) but the call that draws a fresh id for an
outbound request lives in `plugin/psp.rs`, which is not under `src/`. Per
the spec, `send_request` allocates exactly one id per call with
`fetch_add(1)` semantics on the shared counter: the old counter value is
the id, and the counter advances by one, wrapping at `2^64` like `u64`. -/
def send_request_alloc (c : Nat) : Nat × Nat :=
  (c, (c + 1) % U64MOD)

/-- The ids drawn by `n` successive allocations starting from counter `c`. -/
def allocIds : Nat → Nat → List Nat
  | _, 0 => []
  | c, n + 1 =>
    (send_request_alloc c).1 :: allocIds (send_request_alloc c).2 n

/-! ## The Host Import Surface
(`plugin.rs` lines 666-675) -/

/-- `host_handle_notification`, the single function exposed into every
sandbox: `wasi_read_object` reads the guest's stdout pipe
(`readPipe = none` models a failed `wasi_read_string`) and decodes the
JSON (`decode` models `serde_json::from_str` for the tagged notification
type, abstract here as `ν`); on success exactly one message, tagged with
the invoking sandbox's `PluginId`, goes to the proxy channel; otherwise
nothing happens. The returned list is the list of messages sent. -/
def host_handle_notification {ν : Type} (decode : String → Option ν)
    (env_id : Nat) (readPipe : Option String) : List (Nat × ν) :=
  match readPipe.bind decode with
  | some n => [(env_id, n)]
  | none => []

/-! ## The `LockFile` retry loop
(`plugin.rs` lines 721-745: the `PluginNotification::LockFile` branch of
the legacy `host_handle_notification`, present in the source as a
commented-out block and cited as such by the claim) -/

inductive LockResult where
  | locked
  | gaveUp
  deriving DecidableEq, Repr

/-- The `LockFile` retry loop. `create i` tells whether the `i`-th
exclusive `create_new` attempt on the path succeeds. The loop counter `n`
starts at 0; on a failed attempt, when `n > 10` the loop gives up,
otherwise it increments `n`, waits on a filesystem watch bounded by a
10-second timeout, and retries. `fuel` only makes the recursion
structural; the entry point `lockFile` supplies enough of it (proved
below). The result is the outcome and the number of `create_new`
attempts made. -/
def lockLoop (create : Nat → Bool) : Nat → Nat → Option (LockResult × Nat)
  | _, 0 => none
  | n, fuel + 1 =>
    if create n then some (.locked, n + 1)
    else if n > 10 then some (.gaveUp, n + 1)
    else lockLoop create (n + 1) fuel

/-- `LockFile{path}` handling: run the loop from counter 0. -/
def lockFile (create : Nat → Bool) : Option (LockResult × Nat) :=
  lockLoop create 0 12

/-! ## `remove_plugin` / `disable_plugin` ordering
(`plugin.rs` lines 414-428 and 523-556)

`remove_plugin` first calls `disable_plugin`, which spawns a helper
thread to send the `Stop` control (`thread::spawn(move ||
local_tx.send(Stop))`) and returns without waiting, then `remove_plugin`
calls `fs::remove_dir_all` on the installation directory. The relevant
events of the three threads: -/

inductive REv where
  /-- main thread, inside `disable_plugin`: spawn of the Stop-sender thread -/
  | disableSpawn
  /-- main thread, in `remove_plugin` after `disable_plugin` returned:
  `fs::remove_dir_all` -/
  | removeDir
  /-- helper thread: `local_tx.send(PluginTransmissionMessage::Stop)` -/
  | sendStop
  /-- plugin worker thread: receive `Stop` and run the stop export /
  LSP-teardown fallback -/
  | actStop
  deriving DecidableEq, Repr

/-- `a` occurs strictly before `b` in the schedule `s`. -/
def precedes (s : List REv) (a b : REv) : Prop :=
  s.indexOf a < s.indexOf b

instance (s : List REv) (a b : REv) : Decidable (precedes s a b) :=
  inferInstanceAs (Decidable (s.indexOf a < s.indexOf b))

/-- The four events of one `remove_plugin` execution. -/
def removeEvents : List REv := [.disableSpawn, .sendStop, .actStop, .removeDir]

/-- The schedules a `remove_plugin` execution can take: each of the four
events once, respecting program order on the main thread
(`disable_plugin`'s spawn happens before `remove_dir_all`), the spawn
edge (the helper thread runs only after it is spawned) and the channel
edge (the worker acts on `Stop` only after it is sent). No
synchronization orders the helper or worker threads against the main
thread's continuation: `disable_plugin` returns without joining. -/
def validSchedule (s : List REv) : Prop :=
  List.Perm s removeEvents ∧
  precedes s .disableSpawn .sendStop ∧
  precedes s .sendStop .actStop ∧
  precedes s .disableSpawn .removeDir

/-! ## The legacy `PluginCatalog` lifecycle
(`plugin.rs` lines 280-599)

The catalog state: the descriptor map `items`, the names of running
plugin instances `plugins` (the `Plugin` values are opaque), the disabled
descriptor map, and the names holding a live control sender. -/

structure Catalog where
  items : List (String × PluginDesc)
  plugins : List String
  disabled : List (String × PluginDesc)
  senders : List String

/-- `PluginCatalog::disable_plugin` (`plugin.rs` 523-556): spawn a helper
thread that sends `Stop` on the plugin's control sender (asynchronous,
never waited on), drop the sender, insert the descriptor into the
disabled map, and rewrite the persisted disabled list
(`~/.lapce/config/plugins.toml`) as the keys of the new disabled map.
Returns the new state and the persisted name list that was written. -/
def disable_plugin (c : Catalog) (desc : PluginDesc) :
    Catalog × List String :=
  let disabled' := insertMap desc.name desc c.disabled
  ({ c with senders := c.senders.filter (fun n => n ≠ desc.name),
            disabled := disabled' },
   keys disabled')

/-- `PluginCatalog::enable_plugin` (`plugin.rs` 558-594), success path:
the persisted disabled list rewritten to `plugins.toml` is the key list
of the disabled map with the enabled name removed. -/
def enable_plugin_written (c : Catalog) (name : String) : List String :=
  keys (removeKey name c.disabled)

/-- The discovery loop of `PluginCatalog::load` (`plugin.rs` 319-327):
insert every successfully loaded descriptor into the items map. -/
def insertAll : List PluginDesc → List (String × PluginDesc) →
    List (String × PluginDesc)
  | [], m => m
  | d :: rest, m => insertAll rest (insertMap d.name d m)

/-- The disabled-list rebuild of `PluginCatalog::load` (`plugin.rs`
334-340): walk the persisted names, keeping exactly those with an entry
in the (post-discovery) items map. -/
def buildDisabled (items' : List (String × PluginDesc)) :
    List String → List (String × PluginDesc) → List (String × PluginDesc)
  | [], acc => acc
  | n :: rest, acc =>
    match lookup n items' with
    | some d => buildDisabled items' rest (insertMap n d acc)
    | none => buildDisabled items' rest acc

/-- `PluginCatalog::load` (`plugin.rs` 318-342), success path: discovery
inserts each loaded descriptor into `items` (`discovered` is the list of
`load_plugin` successes), then the persisted disabled list replaces the
in-memory disabled map, filtered to names present in `items`. -/
def load (c : Catalog) (discovered : List PluginDesc)
    (persisted : List String) : Catalog :=
  let items' := insertAll discovered c.items
  { c with items := items', disabled := buildDisabled items' persisted [] }

/-- `PluginCatalog::reload` (`plugin.rs` 311-316): clear `items`,
`plugins` and `disabled`, then `load`. -/
def reload (c : Catalog) (discovered : List PluginDesc)
    (persisted : List String) : Catalog :=
  load { c with items := [], plugins := [], disabled := [] }
    discovered persisted

/-- `PluginCatalog::start_all` (`plugin.rs` 430-440): every item whose
name is not a key of the disabled map is passed to `start_plugin` and,
when that succeeds (abstracted by `startOk`), registered in `plugins`.
The loop only reads `disabled`. The result is the list of names started,
in iteration order. -/
def start_all (c : Catalog) (startOk : String → Bool) : List String :=
  (keys c.items).filter (fun n => !(containsKey n c.disabled) && startOk n)

/-! ## Descriptor discovery
(`plugin.rs` lines 183-203 `NewPluginCatalog::load` and 798-830
`load_plugin`) -/

/-- The descriptor fields as parsed from `plugin.toml`, before path
resolution. -/
structure RawDesc where
  name : String
  wasm : Option String
  themes : Option (List String)
  deriving DecidableEq, Repr

/-- A descriptor file found by `find_all_plugins`: its parent directory
(the plugin's own directory) and its content. -/
structure PFile where
  parent : String
  content : String
  deriving DecidableEq, Repr

/-- The filesystem/serde environment of discovery. -/
structure FsEnv where
  /-- `toml::from_str::<PluginDescription>`; `none` models a parse error. -/
  parseToml : String → Option RawDesc
  /-- `Path::canonicalize`; `none` models failure, typically a missing
  file such as an absent bytecode artifact. -/
  canon : String → Option String

/-- `load_plugin` (`plugin.rs` 798-830): parse the descriptor file; set
`dir` to the canonicalized parent directory (failure, via `?`, fails the
whole load); resolve the artifact path against the parent directory
(canonicalize failure silently clears `wasm`, via `.ok()?` inside
`and_then`); resolve each theme path against the parent directory
(failures filtered out by `filter_map`). -/
def load_plugin (env : FsEnv) (f : PFile) : Option PluginDesc :=
  match env.parseToml f.content with
  | none => none
  | some raw =>
    match env.canon f.parent with
    | none => none
    | some dir =>
      some ⟨raw.name, some dir,
        raw.wasm.bind (fun w => env.canon (joinPath f.parent w)),
        raw.themes.map (fun ts =>
          ts.filterMap (fun t => env.canon (joinPath f.parent t)))⟩

/-- The `start_plugin` precondition visible in `src/`
(`NewPluginCatalog::start_plugin`, `plugin.rs` 205-275): a descriptor
without a bytecode artifact fails immediately
(`ok_or(anyhow!("no wasm in plugin"))`); the remaining failure modes
(module compile, WASI setup, instantiation) are abstracted by
`startEnv`. -/
def new_start_plugin (startEnv : PluginDesc → Bool) (d : PluginDesc) : Bool :=
  d.wasm.isSome && startEnv d

/-- `NewPluginCatalog::load` (`plugin.rs` 183-203): enumerate the
descriptor files, load each one independently, skip load errors
(`Err(_e) => ()`), try to start each loaded descriptor and skip start
errors (they are only logged). The result is the list of descriptors of
the successfully started plugins, in discovery order. -/
def catalog_load (env : FsEnv) (startEnv : PluginDesc → Bool)
    (files : List PFile) : List PluginDesc :=
  files.filterMap (fun f =>
    match load_plugin env f with
    | none => none
    | some d => if new_start_plugin startEnv d then some d else none)

/-- A concrete discovery environment used by the C9 witness: one parsable
descriptor content `"good"` in directory `"/d"`, whose artifact
`"a.wasm"` canonicalizes; everything else fails. -/
def envW : FsEnv :=
  ⟨fun s => if s = "good" then some ⟨"p", some "a.wasm", none⟩ else none,
   fun s => if s = "/d" ∨ s = "/d/a.wasm" then some s else none⟩

/-! ## Map and loop lemmas -/

theorem lookup_cons {α β : Type} [DecidableEq α] (k : α) (p : α × β)
    (t : List (α × β)) :
    lookup k (p :: t) = if p.1 = k then some p.2 else lookup k t := rfl

theorem removeKey_cons {α β : Type} [DecidableEq α] (k : α) (p : α × β)
    (t : List (α × β)) :
    removeKey k (p :: t) =
      if p.1 = k then removeKey k t else p :: removeKey k t := by
  by_cases h : p.1 = k <;> simp [removeKey, h]

theorem lookup_removeKey_self {α β : Type} [DecidableEq α] (k : α)
    (m : List (α × β)) : lookup k (removeKey k m) = none := by
  induction m with
  | nil => rfl
  | cons p t ih =>
    by_cases h : p.1 = k
    · simpa [removeKey_cons, h] using ih
    · simpa [removeKey_cons, lookup_cons, h] using ih

theorem lookup_removeKey_other {α β : Type} [DecidableEq α] {k k' : α}
    (m : List (α × β)) (h : k' ≠ k) :
    lookup k' (removeKey k m) = lookup k' m := by
  induction m with
  | nil => rfl
  | cons p t ih =>
    by_cases hp : p.1 = k
    · simp [removeKey_cons, hp, lookup_cons, Ne.symm h, ih]
    · by_cases hk : p.1 = k'
      · simp [removeKey_cons, hp, lookup_cons, hk, h]
      · simp [removeKey_cons, hp, lookup_cons, hk, ih]

theorem lookup_insertMap_self {α β : Type} [DecidableEq α] (k : α) (v : β)
    (m : List (α × β)) : lookup k (insertMap k v m) = some v := by
  simp [insertMap, lookup_cons]

theorem lookup_insertMap_other {α β : Type} [DecidableEq α] {k k' : α}
    (v : β) (m : List (α × β)) (h : k' ≠ k) :
    lookup k' (insertMap k v m) = lookup k' m := by
  show lookup k' ((k, v) :: removeKey k m) = lookup k' m
  rw [lookup_cons]
  rw [if_neg (fun e => h e.symm)]
  exact lookup_removeKey_other m h

theorem containsKey_insertMap {α β : Type} [DecidableEq α] (k n : α) (v : β)
    (m : List (α × β)) :
    containsKey n (insertMap k v m) = true ↔
      n = k ∨ containsKey n m = true := by
  by_cases h : n = k
  · subst h; simp [containsKey, lookup_insertMap_self]
  · simp [containsKey, lookup_insertMap_other v m h, h]

theorem mem_keys_iff {α β : Type} [DecidableEq α] (n : α)
    (m : List (α × β)) : n ∈ keys m ↔ containsKey n m = true := by
  induction m with
  | nil => simp [keys, containsKey, lookup]
  | cons p t ih =>
    by_cases h : p.1 = n
    · simp [keys, containsKey, lookup_cons, h]
    · have h' : ¬ n = p.1 := fun e => h e.symm
      simp only [keys, List.map_cons, List.mem_cons, containsKey,
        lookup_cons, if_neg h, h', false_or]
      exact ih

theorem mem_keys_removeKey {α β : Type} [DecidableEq α] {n k : α}
    {m : List (α × β)} (h : n ∈ keys (removeKey k m)) : n ∈ keys m := by
  induction m with
  | nil => simp [keys, removeKey] at h
  | cons p t ih =>
    rw [removeKey_cons] at h
    by_cases hp : p.1 = k
    · rw [if_pos hp] at h
      exact List.mem_cons_of_mem _ (ih h)
    · rw [if_neg hp] at h
      rcases List.mem_cons.mp h with h1 | h2
      · exact List.mem_cons.mpr (Or.inl h1)
      · exact List.mem_cons_of_mem _ (ih h2)

theorem containsKey_buildDisabled (items' : List (String × PluginDesc))
    (n : String) (L : List String) :
    ∀ acc, containsKey n (buildDisabled items' L acc) = true ↔
      containsKey n acc = true ∨ (n ∈ L ∧ containsKey n items' = true) := by
  induction L with
  | nil => intro acc; simp [buildDisabled]
  | cons a rest ih =>
    intro acc
    by_cases hna : n = a
    · subst hna
      cases hl : lookup n items' with
      | none =>
        simp only [buildDisabled, hl, ih acc]
        have : containsKey n items' = false := by simp [containsKey, hl]
        simp [this]
      | some d =>
        simp only [buildDisabled, hl, ih (insertMap n d acc)]
        have hc : containsKey n items' = true := by simp [containsKey, hl]
        simp [containsKey_insertMap, hc]
    · cases hl : lookup a items' with
      | none =>
        simp only [buildDisabled, hl, ih acc]
        simp [List.mem_cons, hna]
      | some d =>
        simp only [buildDisabled, hl, ih (insertMap a d acc)]
        simp [containsKey_insertMap, List.mem_cons, hna]

theorem allocIds_eq_range' (n : Nat) :
    ∀ c, c + n ≤ U64MOD → allocIds c n = List.range' c n := by
  induction n with
  | zero => intro c _; rfl
  | succ m ih =>
    intro c hc
    rw [List.range'_succ]
    show (send_request_alloc c).1 :: allocIds (send_request_alloc c).2 m =
      c :: List.range' (c + 1) m
    cases m with
    | zero => simp [allocIds, send_request_alloc, List.range']
    | succ m' =>
      have h1 : (c + 1) % U64MOD = c + 1 := Nat.mod_eq_of_lt (by omega)
      simp only [send_request_alloc]
      rw [h1, ih (c + 1) (by omega)]

theorem lockLoop_returns (create : Nat → Bool) :
    ∀ fuel n, n + fuel = 12 → n ≤ 11 →
      ∃ r k, lockLoop create n fuel = some (r, k) ∧ k ≤ 12 := by
  intro fuel
  induction fuel with
  | zero => intro n h12 h11; omega
  | succ f ih =>
    intro n h12 h11
    by_cases hc : create n = true
    · exact ⟨.locked, n + 1, by simp [lockLoop, hc], by omega⟩
    · by_cases hn : n > 10
      · exact ⟨.gaveUp, n + 1, by simp [lockLoop, hc, hn], by omega⟩
      · obtain ⟨r, k, hr, hk⟩ := ih (n + 1) (by omega) (by omega)
        exact ⟨r, k, by simp [lockLoop, hc, hn]; exact hr, hk⟩

theorem lockLoop_all_fail (create : Nat → Bool)
    (hall : ∀ i, create i = false) :
    ∀ fuel n, n + fuel = 12 → n ≤ 11 →
      lockLoop create n fuel = some (.gaveUp, 12) := by
  intro fuel
  induction fuel with
  | zero => intro n h12 h11; omega
  | succ f ih =>
    intro n h12 h11
    by_cases hn : n > 10
    · have hn11 : n = 11 := by omega
      simp [lockLoop, hall, hn, hn11]
    · rw [lockLoop]
      simp only [hall n, Bool.false_eq_true, if_false, hn, if_false]
      exact ih (n + 1) (by omega) (by omega)

theorem lockLoop_succeeds (create : Nat → Bool) :
    ∀ fuel n, n + fuel = 12 → n ≤ 11 →
      (∃ j, n ≤ j ∧ j ≤ 11 ∧ create j = true) →
      ∃ k, lockLoop create n fuel = some (.locked, k) ∧ k ≤ 12 := by
  intro fuel
  induction fuel with
  | zero => intro n h12 h11 _; omega
  | succ f ih =>
    intro n h12 h11 hj
    by_cases hc : create n = true
    · exact ⟨n + 1, by simp [lockLoop, hc], by omega⟩
    · obtain ⟨j, hnj, hj11, hcj⟩ := hj
      have hne : j ≠ n := fun e => by rw [e] at hcj; exact hc hcj
      have hn10 : ¬ n > 10 := by omega
      obtain ⟨k, hr, hk⟩ := ih (n + 1) (by omega) (by omega)
        ⟨j, by omega, hj11, hcj⟩
      exact ⟨k, by simp [lockLoop, hc, hn10]; exact hr, hk⟩

/-! ## Theorems for C1 -/

/-- C1 counterexample: the claim says `exec_path = "../../etc/passwd"`
resolves to no residual file name and the handler returns without spawning;
in fact `Path::file_name` of that path is `Some("passwd")`, so the handler
spawns a process for the bare name `"passwd"`. -/
theorem startLsp_traversal_path_spawns :
    handleStartLspServer [] ⟨0, "../../etc/passwd", "l", some true⟩ =
      SpawnOutcome.spawned "passwd" := by
  decide

/-- C1 (amended): for every `StartLspServer` notification with
`system_lsp = true`, the exec path used for spawning is exactly the
file-name component of the given `exec_path`, and when the path has no
file-name component (a path ending in `..`, a bare root, or the empty
string) the handler returns without spawning any process. -/
theorem startLsp_system_exec_is_file_name (plugins : List (Nat × PluginDesc))
    (args : StartLspArgs) (hsys : args.system_lsp.getD false = true) :
    (∀ v, fileName args.exec_path = some v →
      handleStartLspServer plugins args = SpawnOutcome.spawned v) ∧
    (fileName args.exec_path = none →
      handleStartLspServer plugins args = SpawnOutcome.refused) := by
  unfold handleStartLspServer
  rw [hsys]
  constructor
  · intro v hv
    simp [hv]
  · intro hv
    simp [hv]

/-- C1 witness: `"/usr/bin/evil; rm -rf"` is stripped to its file name, and
a path ending in `..` is refused. -/
theorem startLsp_system_exec_is_file_name_witness :
    handleStartLspServer [] ⟨0, "/usr/bin/evil; rm -rf", "l", some true⟩ =
      SpawnOutcome.spawned "evil; rm -rf" ∧
    handleStartLspServer [] ⟨0, "foo/..", "l", some true⟩ =
      SpawnOutcome.refused := by
  constructor
  · exact (startLsp_system_exec_is_file_name [] _ (by decide)).1
      "evil; rm -rf" (by decide)
  · exact (startLsp_system_exec_is_file_name [] _ (by decide)).2 (by decide)

/-! ## Theorems for C2 -/

/-- C2 counterexample: the claim says a `StartLspServer` notification with
`system_lsp` absent and an unknown `plugin_id` is a silent no-op that does
not panic; in fact `self.plugins.get(&plugin_id).unwrap()` panics. -/
theorem startLsp_unknown_plugin_panics :
    handleStartLspServer [] ⟨5, "bin/ls", "l", none⟩ =
      SpawnOutcome.panicked := by
  decide

/-- C2 (amended): for every `StartLspServer` notification with `system_lsp`
false or absent whose `plugin_id` is not a key of the catalog's live-plugin
map, the handler panics (an `unwrap()` of the failed map lookup); no
process is spawned. -/
theorem startLsp_unknown_plugin_no_spawn (plugins : List (Nat × PluginDesc))
    (args : StartLspArgs) (hsys : args.system_lsp.getD false = false)
    (hmiss : lookup args.plugin_id plugins = none) :
    handleStartLspServer plugins args = SpawnOutcome.panicked := by
  unfold handleStartLspServer
  rw [hsys, hmiss]
  simp

/-- C2 witness: concrete unknown plugin id on an empty live-plugin map. -/
theorem startLsp_unknown_plugin_no_spawn_witness :
    handleStartLspServer [(3, ⟨"p", some "/d", none, none⟩)]
      ⟨7, "bin/ls", "l", some false⟩ =
      SpawnOutcome.panicked :=
  startLsp_unknown_plugin_no_spawn _ _ (by decide) (by decide)

/-! ## Theorems for C3 -/

/-- C3: `handle_response(id, result)` removes the PendingTable entry for
`id` and delivers the result to exactly that entry's continuation channel;
every other entry is untouched; when no entry exists the table is
unchanged and no continuation is invoked; in particular a second call with
the same `id` is a no-op. -/
theorem handle_response_delivers_once {κ : Type}
    (t : List (Nat × κ)) (id : Nat) :
    lookup id (handle_response t id).1 = none ∧
    (handle_response t id).2 = lookup id t ∧
    (∀ k, k ≠ id → lookup k (handle_response t id).1 = lookup k t) ∧
    (lookup id t = none → handle_response t id = (t, none)) ∧
    handle_response (handle_response t id).1 id =
      ((handle_response t id).1, none) := by
  cases h : lookup id t with
  | none =>
    refine ⟨?_, ?_, ?_, ?_, ?_⟩
    · simp [handle_response, h]
    · simp [handle_response, h]
    · intro k _; simp [handle_response, h]
    · intro _; simp [handle_response, h]
    · simp [handle_response, h]
  | some chan =>
    have hrem : lookup id (removeKey id t) = none := lookup_removeKey_self id t
    refine ⟨?_, ?_, ?_, ?_, ?_⟩
    · simp [handle_response, h, hrem]
    · simp [handle_response, h]
    · intro k hk
      simp only [handle_response, h]
      exact lookup_removeKey_other t hk
    · intro hn; simp [h] at hn
    · simp [handle_response, h, hrem]

/-- C3 witness: a concrete two-entry table; the entry for id 1 is removed,
its channel gets the result, id 2 survives, and a repeat call is a no-op. -/
theorem handle_response_delivers_once_witness :
    lookup 1 (handle_response [(1, 10), (2, 20)] 1).1 = none ∧
    (handle_response [(1, 10), (2, 20)] 1).2 = lookup 1 [(1, 10), (2, 20)] ∧
    (∀ k, k ≠ 1 → lookup k (handle_response [(1, 10), (2, 20)] 1).1 =
      lookup k [(1, 10), (2, 20)]) ∧
    (lookup 1 [(1, 10), (2, 20)] = none →
      handle_response [(1, 10), (2, 20)] 1 = ([(1, 10), (2, 20)], none)) ∧
    handle_response (handle_response [(1, (10 : Nat)), (2, 20)] 1).1 1 =
      ((handle_response [(1, 10), (2, 20)] 1).1, none) :=
  handle_response_delivers_once [(1, 10), (2, 20)] 1

/-! ## Theorems for C4 -/

/-- C4: across any sequence of `send_request` calls on one Broker (counter
fresh at 0), as long as the `u64` counter does not wrap (at most `2^64`
calls) the allocated request ids are pairwise distinct and strictly
increasing in allocation order, and each call allocates exactly one id. -/
theorem send_request_ids_strictly_increasing (n : Nat) (h : n ≤ U64MOD) :
    (allocIds 0 n).length = n ∧
    List.Pairwise (· < ·) (allocIds 0 n) ∧
    (allocIds 0 n).Nodup := by
  have e : allocIds 0 n = List.range n := by
    rw [allocIds_eq_range' n 0 (by omega), List.range_eq_range']
  refine ⟨by rw [e]; exact List.length_range n, by rw [e]; exact List.pairwise_lt_range n, ?_⟩
  rw [e]; exact List.nodup_range n

/-- C4 witness: three allocations yield the three distinct increasing ids
`[0, 1, 2]`. -/
theorem send_request_ids_strictly_increasing_witness :
    (allocIds 0 3).length = 3 ∧
    List.Pairwise (· < ·) (allocIds 0 3) ∧
    (allocIds 0 3).Nodup :=
  send_request_ids_strictly_increasing 3 (by norm_num [U64MOD])

/-! ## Theorems for C5 -/

/-- C5: when the pipe content decodes to a valid tagged notification, the
invocation forwards exactly that notification paired with the invoking
sandbox's `PluginId` and nothing else; a decode failure (or a pipe read
failure) has no observable effect. -/
theorem host_notification_forwarding {ν : Type} (decode : String → Option ν)
    (env_id : Nat) (s : String) :
    (∀ n, decode s = some n →
      host_handle_notification decode env_id (some s) = [(env_id, n)]) ∧
    (decode s = none → host_handle_notification decode env_id (some s) = []) ∧
    host_handle_notification decode env_id none = ([] : List (Nat × ν)) := by
  refine ⟨fun n hn => ?_, fun hn => ?_, rfl⟩
  · simp [host_handle_notification, hn]
  · simp [host_handle_notification, hn]

/-- C5 witness: a concrete decoder forwarding one message on success and
dropping garbage. -/
theorem host_notification_forwarding_witness :
    host_handle_notification (fun t => if t = "m" then some 0 else none)
      7 (some "m") = [(7, 0)] ∧
    host_handle_notification (fun t => if t = "m" then some 0 else none)
      7 (some "garbage") = [] :=
  ⟨(host_notification_forwarding _ 7 "m").1 0 (by decide),
   (host_notification_forwarding (fun t => if t = "m" then some 0 else none)
      7 "garbage").2.1 (by decide)⟩

/-! ## Theorems for C6 -/

/-- C6: the `LockFile` loop always returns within the fixed budget of 12
`create_new` attempts (11 bounded-timeout waits) rather than blocking
indefinitely; on a path that never becomes creatable it gives up after
exactly 12 attempts; on a path whose lock file can be created within the
budget it returns success. -/
theorem lockFile_bounded (create : Nat → Bool) :
    (∃ r k, lockFile create = some (r, k) ∧ k ≤ 12) ∧
    ((∀ i, create i = false) → lockFile create = some (.gaveUp, 12)) ∧
    (∀ j, j ≤ 11 → create j = true →
      ∃ k, lockFile create = some (.locked, k) ∧ k ≤ 12) := by
  refine ⟨lockLoop_returns create 12 0 rfl (by omega), ?_, ?_⟩
  · intro hall
    exact lockLoop_all_fail create hall 12 0 rfl (by omega)
  · intro j hj11 hcj
    exact lockLoop_succeeds create 12 0 rfl (by omega) ⟨j, Nat.zero_le _, hj11, hcj⟩

/-- C6 witness: a never-creatable path gives up after exactly 12 attempts;
a path creatable on the third attempt locks within the budget. -/
theorem lockFile_bounded_witness :
    lockFile (fun _ => false) = some (.gaveUp, 12) ∧
    ∃ k, lockFile (fun i => decide (i = 2)) = some (.locked, k) ∧ k ≤ 12 :=
  ⟨(lockFile_bounded (fun _ => false)).2.1 (fun _ => rfl),
   (lockFile_bounded (fun i => decide (i = 2))).2.2 2 (by omega) (by decide)⟩

/-! ## Theorems for C7 -/

/-- C7 counterexample: the schedule that deletes the installation
directory immediately after `disable_plugin` returns — before the helper
thread has even sent `Stop` — is a valid execution of `remove_plugin`,
and in it the worker has not acted on `Stop` when `fs::remove_dir_all`
runs, contradicting the claimed ordering. -/
theorem removeDir_can_precede_stop :
    validSchedule [.disableSpawn, .removeDir, .sendStop, .actStop] ∧
    ¬ precedes [.disableSpawn, .removeDir, .sendStop, .actStop]
        .actStop .removeDir := by
  constructor
  · exact ⟨by decide, by decide, by decide, by decide⟩
  · decide

/-- C7 (amended): `fs::remove_dir_all` runs only after `disable_plugin`'s
synchronous side effects (its spawn of the Stop-sender thread) in every
valid schedule, but it is not ordered against the asynchronous `Stop`:
there are valid schedules where the directory is deleted before the
`Stop` control is even sent, and others where the worker acts on `Stop`
first. -/
theorem removeDir_unordered_with_stop :
    (∀ s, validSchedule s → precedes s .disableSpawn .removeDir) ∧
    (∃ s, validSchedule s ∧ precedes s .removeDir .sendStop) ∧
    (∃ s, validSchedule s ∧ precedes s .actStop .removeDir) := by
  refine ⟨fun s hs => hs.2.2.2, ?_, ?_⟩
  · exact ⟨[.disableSpawn, .removeDir, .sendStop, .actStop],
      ⟨by decide, by decide, by decide, by decide⟩, by decide⟩
  · exact ⟨[.disableSpawn, .sendStop, .actStop, .removeDir],
      ⟨by decide, by decide, by decide, by decide⟩, by decide⟩

/-- C7 witness: the fully sequential schedule instantiates the guaranteed
part of the ordering. -/
theorem removeDir_unordered_with_stop_witness :
    precedes [REv.disableSpawn, .sendStop, .actStop, .removeDir]
      .disableSpawn .removeDir :=
  removeDir_unordered_with_stop.1
    [REv.disableSpawn, .sendStop, .actStop, .removeDir]
    ⟨by decide, by decide, by decide, by decide⟩

/-! ## Theorems for C8 -/

/-- C8: after `disable_plugin` succeeds for a descriptor, its name is in
the persisted disabled list; on a full start after a discovery reload
from that persisted state, `start_all` does not start it, while every
discovered item whose name is not in the reloaded disabled set (and whose
`start_plugin` call succeeds) is started. -/
theorem disable_excluded_after_reload (c : Catalog) (desc : PluginDesc)
    (discovered : List PluginDesc) (startOk : String → Bool) :
    desc.name ∈ (disable_plugin c desc).2 ∧
    desc.name ∉
      start_all (reload (disable_plugin c desc).1 discovered
        (disable_plugin c desc).2) startOk ∧
    (∀ q, containsKey q (reload (disable_plugin c desc).1 discovered
          (disable_plugin c desc).2).items = true →
      containsKey q (reload (disable_plugin c desc).1 discovered
          (disable_plugin c desc).2).disabled = false →
      startOk q = true →
      q ∈ start_all (reload (disable_plugin c desc).1 discovered
        (disable_plugin c desc).2) startOk) := by
  have hpers : desc.name ∈ (disable_plugin c desc).2 :=
    (mem_keys_iff _ _).mpr
      ((containsKey_insertMap _ _ _ _).mpr (Or.inl rfl))
  refine ⟨hpers, ?_, ?_⟩
  · intro hmem
    rw [start_all, List.mem_filter] at hmem
    obtain ⟨hin, hcond⟩ := hmem
    have hitems : containsKey desc.name
        (insertAll discovered []) = true := (mem_keys_iff _ _).mp hin
    have hdis : containsKey desc.name
        (reload (disable_plugin c desc).1 discovered
          (disable_plugin c desc).2).disabled = true := by
      exact (containsKey_buildDisabled _ _ _ []).mpr
        (Or.inr ⟨hpers, hitems⟩)
    rw [hdis] at hcond
    simp at hcond
  · intro q hq hqd hqs
    rw [start_all, List.mem_filter]
    exact ⟨(mem_keys_iff _ _).mpr hq, by simp [hqd, hqs]⟩

/-- C8 witness: disabling plugin `"a"` on a fresh catalog, then reloading
a discovery of `"a"` and `"b"` from the persisted state, starts `"b"` but
not `"a"`. -/
theorem disable_excluded_after_reload_witness :
    "a" ∈ (disable_plugin ⟨[], [], [], []⟩
      ⟨"a", some "/pa", some "/pa/a.wasm", none⟩).2 ∧
    "a" ∉ start_all (reload (disable_plugin ⟨[], [], [], []⟩
      ⟨"a", some "/pa", some "/pa/a.wasm", none⟩).1
      [⟨"a", some "/pa", some "/pa/a.wasm", none⟩,
       ⟨"b", some "/pb", some "/pb/b.wasm", none⟩]
      (disable_plugin ⟨[], [], [], []⟩
        ⟨"a", some "/pa", some "/pa/a.wasm", none⟩).2) (fun _ => true) ∧
    "b" ∈ start_all (reload (disable_plugin ⟨[], [], [], []⟩
      ⟨"a", some "/pa", some "/pa/a.wasm", none⟩).1
      [⟨"a", some "/pa", some "/pa/a.wasm", none⟩,
       ⟨"b", some "/pb", some "/pb/b.wasm", none⟩]
      (disable_plugin ⟨[], [], [], []⟩
        ⟨"a", some "/pa", some "/pa/a.wasm", none⟩).2) (fun _ => true) := by
  have h := disable_excluded_after_reload ⟨[], [], [], []⟩
    ⟨"a", some "/pa", some "/pa/a.wasm", none⟩
    [⟨"a", some "/pa", some "/pa/a.wasm", none⟩,
     ⟨"b", some "/pb", some "/pb/b.wasm", none⟩]
    (fun _ => true)
  exact ⟨h.1, h.2.1, h.2.2 "b" (by decide) (by decide) rfl⟩

/-! ## Theorems for C10 -/

/-- C10: after `PluginCatalog::load` succeeds, every name in the
in-memory disabled map has an entry in the items map; a persisted
disabled name with no matching discovered descriptor is dropped from the
disabled set, and the next rewrite of the persisted list by
`disable_plugin` (of a different plugin) or `enable_plugin` omits it. -/
theorem load_drops_unknown_disabled (c : Catalog)
    (discovered : List PluginDesc) (persisted : List String)
    (d : String) (q : PluginDesc) (e : String) :
    (∀ n, containsKey n (load c discovered persisted).disabled = true →
      containsKey n (load c discovered persisted).items = true) ∧
    (containsKey d (load c discovered persisted).items = false →
      containsKey d (load c discovered persisted).disabled = false) ∧
    (containsKey d (load c discovered persisted).items = false →
      d ≠ q.name →
      d ∉ (disable_plugin (load c discovered persisted) q).2) ∧
    (containsKey d (load c discovered persisted).items = false →
      d ∉ enable_plugin_written (load c discovered persisted) e) := by
  have hmain : ∀ n, containsKey n (load c discovered persisted).disabled = true →
      containsKey n (load c discovered persisted).items = true := by
    intro n hn
    have := (containsKey_buildDisabled _ n persisted []).mp hn
    rcases this with h0 | ⟨_, hit⟩
    · simp [containsKey, lookup] at h0
    · exact hit
  have hdrop : containsKey d (load c discovered persisted).items = false →
      containsKey d (load c discovered persisted).disabled = false := by
    intro hd
    cases hc : containsKey d (load c discovered persisted).disabled with
    | false => rfl
    | true => rw [hmain d hc] at hd; cases hd
  refine ⟨hmain, hdrop, ?_, ?_⟩
  · intro hd hne hmem
    rw [disable_plugin] at hmem
    have := (mem_keys_iff _ _).mp hmem
    rcases (containsKey_insertMap _ _ _ _).mp this with h1 | h2
    · exact hne h1
    · rw [hdrop hd] at h2; cases h2
  · intro hd hmem
    have := (mem_keys_iff _ _).mp
      ((mem_keys_iff _ _).mpr ((mem_keys_iff _ _).mp hmem) :
        d ∈ keys (removeKey e (load c discovered persisted).disabled))
    have hin : d ∈ keys (load c discovered persisted).disabled :=
      mem_keys_removeKey ((mem_keys_iff _ _).mpr this)
    have := (mem_keys_iff _ _).mp hin
    rw [hdrop hd] at this; cases this

/-- C10 witness: a persisted name `"ghost"` with no discovered descriptor
is dropped by `load` and omitted from the persisted list rewritten by a
later `disable_plugin` of `"b"` and by `enable_plugin` of `"a"`. -/
theorem load_drops_unknown_disabled_witness :
    (containsKey "ghost" (load ⟨[], [], [], []⟩
      [⟨"a", some "/pa", some "/pa/a.wasm", none⟩] ["ghost", "a"]).items = false →
      containsKey "ghost" (load ⟨[], [], [], []⟩
        [⟨"a", some "/pa", some "/pa/a.wasm", none⟩] ["ghost", "a"]).disabled = false) ∧
    ("ghost" ∉ (disable_plugin (load ⟨[], [], [], []⟩
      [⟨"a", some "/pa", some "/pa/a.wasm", none⟩] ["ghost", "a"])
      ⟨"b", some "/pb", some "/pb/b.wasm", none⟩).2) ∧
    ("ghost" ∉ enable_plugin_written (load ⟨[], [], [], []⟩
      [⟨"a", some "/pa", some "/pa/a.wasm", none⟩] ["ghost", "a"]) "a") := by
  have h := load_drops_unknown_disabled ⟨[], [], [], []⟩
    [⟨"a", some "/pa", some "/pa/a.wasm", none⟩] ["ghost", "a"] "ghost"
    ⟨"b", some "/pb", some "/pb/b.wasm", none⟩ "a"
  exact ⟨h.2.1, h.2.2.1 (by decide) (by decide), h.2.2.2 (by decide)⟩

/-! ## Theorems for C9 -/

/-- C9: discovery processes each enumerated descriptor independently. A
descriptor file that fails to load (parse error or un-canonicalizable
directory) is skipped without stopping discovery; one whose bytecode
artifact is missing (so its `wasm` was cleared) fails `start_plugin` and
is likewise skipped; every other file contributes exactly as it would
without the bad file. A successfully loaded descriptor has its artifact
and theme paths resolved against the descriptor's own directory. -/
theorem discovery_independent (env : FsEnv) (startEnv : PluginDesc → Bool)
    (xs ys : List PFile) (f : PFile) :
    (load_plugin env f = none →
      catalog_load env startEnv (xs ++ f :: ys) =
        catalog_load env startEnv (xs ++ ys)) ∧
    (∀ d, load_plugin env f = some d → d.wasm = none →
      catalog_load env startEnv (xs ++ f :: ys) =
        catalog_load env startEnv (xs ++ ys)) ∧
    (∀ raw dir w, env.parseToml f.content = some raw →
      env.canon f.parent = some dir → raw.wasm = some w →
      ∃ d, load_plugin env f = some d ∧
        d.dir = some dir ∧
        d.wasm = env.canon (joinPath f.parent w) ∧
        d.themes = raw.themes.map (fun ts =>
          ts.filterMap (fun t => env.canon (joinPath f.parent t)))) := by
  refine ⟨?_, ?_, ?_⟩
  · intro h
    simp [catalog_load, List.filterMap_append, List.filterMap_cons, h]
  · intro d hd hw
    have : new_start_plugin startEnv d = false := by
      simp [new_start_plugin, hw]
    simp [catalog_load, List.filterMap_append, List.filterMap_cons, hd, this]
  · intro raw dir w hp hc hw
    refine ⟨⟨raw.name, some dir,
        raw.wasm.bind (fun v => env.canon (joinPath f.parent v)),
        raw.themes.map (fun ts =>
          ts.filterMap (fun t => env.canon (joinPath f.parent t)))⟩,
      ?_, rfl, ?_, rfl⟩
    · simp [load_plugin, hp, hc]
    · simp [hw]

/-- C9 witness: a parse-failing file is skipped and the remaining good
descriptor is still discovered, with its artifact path resolved against
its own directory. -/
theorem discovery_independent_witness :
    catalog_load envW (fun _ => true) [⟨"/bad", "junk"⟩, ⟨"/d", "good"⟩] =
      catalog_load envW (fun _ => true) [⟨"/d", "good"⟩] ∧
    (∃ d, load_plugin envW ⟨"/d", "good"⟩ = some d ∧
      d.dir = some "/d" ∧
      d.wasm = envW.canon (joinPath "/d" "a.wasm") ∧
      d.themes = (none : Option (List String)).map (fun ts =>
        ts.filterMap (fun t => envW.canon (joinPath "/d" t)))) := by
  have h := discovery_independent envW (fun _ => true) [] [⟨"/d", "good"⟩]
    ⟨"/bad", "junk"⟩
  have h2 := discovery_independent envW (fun _ => true) [] [] ⟨"/d", "good"⟩
  obtain ⟨d, hd, hdir, hwasm, hthemes⟩ :=
    h2.2.2 ⟨"p", some "a.wasm", none⟩ "/d" "a.wasm" (by decide) (by decide) rfl
  exact ⟨h.1 (by decide), d, hd, hdir, hwasm, hthemes⟩

end Lapce
